import Mathlib

/-!
Verification of the DeskAgent repository (Electron UI for a desktop
automation agent).  The definitions below are a shallow embedding of the
JavaScript in `ui/main.js`, `ui/renderer.js` and `ui/preload.js`; components
of the Python backend that are not part of the sources (the validator's risk
table, the action executor and the audit sink) are modelled from the spec and
marked as such in their doc comments.

Modelling conventions:
* JavaScript objects become structures; absent/`undefined` fields become
  `Option`; JavaScript truthiness of a string is "non-empty", of an object
  "present".
* Action outputs are either strings or the structured process-list object the
  renderer manipulates (`top_processes`).  Numeric output fields are modelled
  as naturals and `toFixed` on whole numbers; no claim depends on fractional
  digits.
* `async`/`await` interactions with the backend are modelled by passing the
  backend responses as explicit arguments and recording the outgoing calls as
  events; a press of the Stop button during an `await` is modelled by a
  boolean flag that applies the stop handler at that point.
* Regular expressions in `isFormattingOnlyRequest` are modelled by
  tokenisation on whitespace, which is equivalent for the anchored
  `\s+`-separated patterns the source uses.
-/

namespace DeskAgent

/-- One entry of a submitted plan (external interface `{action, args, risk_level?, description?}`).
Argument values are modelled as strings. -/
structure PlanAction where
  action : String
  args : List (String × String)
  risk_level : Option String
  description : Option String
deriving DecidableEq

/-- One process entry of a `top_processes` output object
(the fields `renderer.js` reads or deletes). -/
structure ProcEntry where
  name : String
  memory_mb : Option Nat
  memory_percent : Option Nat
  pid : Option Nat
deriving DecidableEq

/-- The structured output object carrying `top_processes`,
plus the `exclude_fields` annotation `reformatLastResult` adds. -/
structure TopProcsOutput where
  top_processes : List ProcEntry
  exclude_fields : Option (List String)
deriving DecidableEq

/-- A JavaScript action output as the renderer distinguishes it:
either a string or an object (here: the process-list object). -/
inductive JSOutput where
  | str (s : String)
  | procsObj (o : TopProcsOutput)
deriving DecidableEq

/-- One execution result `{action, status, output?, error?}` as consumed by the renderer. -/
structure ExecActionResult where
  action : String
  status : String
  output : Option JSOutput
  error : Option String
deriving DecidableEq

/-- JavaScript truthiness of an optional string (`undefined` and `""` are falsy). -/
def truthyStr : Option String → Bool
  | none => false
  | some s => s != ""

/-- JavaScript truthiness of an optional output value
(`undefined` and the empty string are falsy, objects are truthy). -/
def truthyOut : Option JSOutput → Bool
  | none => false
  | some (.str s) => s != ""
  | some (.procsObj _) => true

/-- JavaScript `String.prototype.trim`, over the character list (so that the
kernel can evaluate it). -/
def jsTrim (s : String) : String :=
  String.mk (((s.data.dropWhile Char.isWhitespace).reverse.dropWhile Char.isWhitespace).reverse)

/-- JavaScript `String.prototype.toLowerCase`, over the character list. -/
def jsToLower (s : String) : String := String.mk (s.data.map Char.toLower)

/-- Whether `pat` is a prefix of `cs`. -/
def startsWithList : List Char → List Char → Bool
  | _, [] => true
  | [], _ :: _ => false
  | c :: cs, p :: ps => c == p && startsWithList cs ps

/-- Whether `pat` occurs as a contiguous sublist of `cs`. -/
def containsSubList : List Char → List Char → Bool
  | [], pat => pat.isEmpty
  | c :: cs, pat => startsWithList (c :: cs) pat || containsSubList cs pat

/-- JavaScript `String.prototype.includes`, over the character lists. -/
def jsIncludes (s pat : String) : Bool := containsSubList s.data pat.data

/-- The ternary risk colouring in `addMessageToDOM` (renderer.js):
`risk_level === 'low' ? '#4CAF50' : risk_level === 'high' ? '#f44336' : '#ff9800'`. -/
def riskColor (risk_level : Option String) : String :=
  if risk_level == some "low" then "#4CAF50"
  else if risk_level == some "high" then "#f44336"
  else "#ff9800"

/-- The colour the plan display gives an action: it is keyed on the
submitted `action.risk_level` (renderer.js `addMessageToDOM`). -/
def planItemColor (a : PlanAction) : String := riskColor a.risk_level

/-- Whitespace tokenisation used to model the anchored `\s+`-separated regexes. -/
def tokensOf (s : String) : List String :=
  ((s.data.foldr
      (fun c acc =>
        if c.isWhitespace then [] :: acc
        else (c :: acc.headD []) :: acc.tail)
      [[]]).filter (· != [])).map String.mk

/-- A `\w+` word: non-empty, only alphanumerics and underscore. -/
def isWordTok (s : String) : Bool := s != "" && s.toList.all fun c => c.isAlphanum || c == '_'

/-- `isFormattingOnlyRequest` (renderer.js): the five case-insensitive anchored
patterns, tested against the trimmed prompt.  Modelled by tokenising the
lowercased prompt on whitespace. -/
def isFormattingOnlyRequest (prompt : String) : Bool :=
  match tokensOf (jsToLower (jsTrim prompt)) with
  | [a, b] => (a == "without" || a == "hide" || a == "remove") && isWordTok b
  | [a, b, c] => a == "don\x27t" && b == "show" && isWordTok c
  | [a, b, c, d] =>
      ((a == "give" || a == "show") && (b == "result" || b == "output" || b == "that") &&
        (c == "without" || c == "hide" || c == "no" || c == "remove") && isWordTok d)
      || (a == "do" && b == "not" && c == "show" && isWordTok d)
  | _ => false

/-- `extractExcludeFields` (renderer.js): substring tests on the lowercased prompt,
pushing field names in source order. -/
def extractExcludeFields (prompt : String) : List String :=
  let lower := jsToLower prompt
  (if jsIncludes lower "without pid" || jsIncludes lower "hide pid" || jsIncludes lower "no pid"
    then ["pid"] else []) ++
  (if jsIncludes lower "without memory percent" || jsIncludes lower "hide memory percent"
    then ["memory_percent"] else []) ++
  (if jsIncludes lower "without memory" || jsIncludes lower "hide memory"
    then ["memory_mb"] else [])

/-- `delete proc[field]` for the fields a process entry carries. -/
def deleteProcField (p : ProcEntry) (f : String) : ProcEntry :=
  if f == "pid" then { p with pid := none }
  else if f == "memory_mb" then { p with memory_mb := none }
  else if f == "memory_percent" then { p with memory_percent := none }
  else p

/-- `reformatLastResult` (renderer.js): `null` when there is no last result or its
output is falsy; otherwise a deep clone of the output with the excluded fields
deleted from each process entry and `exclude_fields` recorded.  The clone is the
value returned; the stored result is not touched. -/
def reformatLastResult (lastResult : Option ExecActionResult) (excludeFields : List String) :
    Option JSOutput :=
  match lastResult with
  | none => none
  | some r =>
    match r.output with
    | none => none
    | some out =>
      if truthyOut (some out) then
        match out with
        | .str s => some (.str s)
        | .procsObj o =>
            some (.procsObj
              { top_processes := o.top_processes.map fun p => List.foldl deleteProcField p excludeFields,
                exclude_fields := some excludeFields })
      else none

/-- JavaScript `Number.prototype.toFixed` on the whole numbers of this model. -/
def jsToFixed (digits : Nat) (n : Nat) : String :=
  if digits == 0 then toString n
  else toString n ++ "." ++ String.mk (List.replicate digits '0')

/-- One process line of `formatSystemInfo`'s `top_processes` rendering. -/
def formatProcLine (ip : Nat × ProcEntry) : String :=
  let i1 := ip.1 + 1
  let proc := ip.2
  let nm := proc.name
  let line1 := s!"{i1}. {nm}\n"
  let details :=
    (match proc.memory_mb with
      | some mb =>
          let mbs := jsToFixed 0 mb
          let gbs := jsToFixed 2 (mb / 1024)
          [s!"RAM: {mbs} MB ({gbs} GB)"]
      | none => []) ++
    (match proc.memory_percent with
      | some mp =>
          let mps := jsToFixed 1 mp
          [s!"{mps}%"]
      | none => []) ++
    (match proc.pid with
      | some pid =>
          [s!"PID: {pid}"]
      | none => [])
  if details.length > 0 then
    let joined := String.intercalate " - " details
    line1 ++ s!"   {joined}\n\n"
  else
    line1 ++ "\n"

/-- `formatSystemInfo` (renderer.js), on the output shapes of this model: the
string branch (with the wizard-step replacement) and the `top_processes` branch.
The battery/RAM/CPU/disk branches key on fields the modelled outputs do not
carry and are therefore vacuous here. -/
def formatSystemInfo : JSOutput → String
  | .str s => if jsIncludes s "steps:" then s.replace "Clicked" "✓ Clicked" else s
  | .procsObj o =>
      let n := o.top_processes.length
      let body := String.join (o.top_processes.enum.map formatProcLine)
      jsTrim (s!"📊 Top {n} Processes by Memory Usage:\n\n" ++ body)

/-- JSON text of one process entry (`JSON.stringify`; string escaping and
pretty-printing whitespace are not reproduced — no claim depends on this text). -/
def jsonProcEntry (p : ProcEntry) : String :=
  let base := "\"name\": \"" ++ p.name ++ "\""
  let base := base ++ (match p.memory_mb with
    | some mb => ", \"memory_mb\": " ++ toString mb
    | none => "")
  let base := base ++ (match p.memory_percent with
    | some mp => ", \"memory_percent\": " ++ toString mp
    | none => "")
  let base := base ++ (match p.pid with
    | some pid => ", \"pid\": " ++ toString pid
    | none => "")
  "\x7b" ++ base ++ "\x7d"

/-- JSON text of the process-list object (`JSON.stringify(output, null, 2)`;
indentation not reproduced). -/
def jsonStringifyTop (o : TopProcsOutput) : String :=
  let procs := String.intercalate ", " (o.top_processes.map jsonProcEntry)
  let extra := match o.exclude_fields with
    | some fs => ", \"exclude_fields\": [" ++ String.intercalate ", " (fs.map fun f => "\"" ++ f ++ "\"") ++ "]"
    | none => ""
  "\x7b\"top_processes\": [" ++ procs ++ "]" ++ extra ++ "\x7d"

/-- How `executeCurrentPlan` renders one successful output: objects of the two
system-info actions go through `formatSystemInfo`, other objects through
`JSON.stringify`, strings are appended as-is. -/
def renderOutput (action : String) : JSOutput → String
  | .str s => s
  | .procsObj o =>
      if action == "run_python_code" || action == "get_top_processes_by_memory" then
        formatSystemInfo (.procsObj o)
      else jsonStringifyTop o

/-! ### Renderer state and the submission / execution flow (renderer.js) -/

/-- The renderer's module-level mutable state
(`currentPlan`, `isProcessing`, `shouldStop`, `lastResult`). -/
structure RendererState where
  currentPlan : Option (List PlanAction)
  isProcessing : Bool
  shouldStop : Bool
  lastResult : Option ExecActionResult
deriving DecidableEq

/-- `setProcessing(processing)` (renderer.js): sets `isProcessing` and
unconditionally resets `shouldStop` to `false`. -/
def setProcessingS (st : RendererState) (processing : Bool) : RendererState :=
  { st with isProcessing := processing, shouldStop := false }

/-- `handleStop` (renderer.js): sets `shouldStop := true`, then calls
`setProcessing(false)` — which resets `shouldStop` to `false` again. -/
def handleStopS (st : RendererState) : RendererState :=
  setProcessingS { st with shouldStop := true } false

/-- The message `handleStop` adds. -/
def stopMessageContent : String := "Processing stopped by user."

/-- The response of the `submit-prompt` IPC round trip (the planner). -/
structure PlannerResponse where
  success : Bool
  plan : List PlanAction
  error : Option String
deriving DecidableEq

/-- The response of the `approve-plan` IPC round trip (the executor). -/
structure ExecResponse where
  success : Bool
  results : List ExecActionResult
  error : Option String
deriving DecidableEq

/-- Observable renderer events: messages added to the transcript and the two
outgoing backend calls exposed by `preload.js` that submission can make. -/
inductive UIEvent where
  | message (type title content : String)
  | callSubmitPrompt (prompt : String)
  | callApprovePlan (plan : List PlanAction)
deriving DecidableEq

/-- The condition `result.plan.length === 1 && result.plan[0].action === 'chat'`. -/
def isChatPlan (plan : List PlanAction) : Bool :=
  plan.length == 1 &&
    (match plan.head? with
      | some a => a.action == "chat"
      | none => false)

/-- `result.plan[0].args.message || 'Hello!'`. -/
def chatMessageOf (a : PlanAction) : String :=
  let v := (List.lookup "message" a.args).getD ""
  if v == "" then "Hello!" else v

/-- `JSON.stringify` of a short argument value as the plan description shows it
(string escaping not reproduced), and the 50-character truncation. -/
def displayValue (v : String) : String :=
  if v.length > 50 then String.mk (v.data.take 50) ++ "..." else "\"" ++ v ++ "\""

/-- One action's lines of the plan description `handleSubmit` prints:
`description || action`, then up to three non-`code`/`script` truthy args. -/
def planActionDesc (i1 : Nat) (a : PlanAction) : String :=
  let nm := match a.description with
    | some d => if d == "" then a.action else d
    | none => a.action
  let head := s!"{i1}. {nm}\n"
  let keyArgs := (a.args.filter fun kv =>
    (kv.2 != "") && (kv.1 != "code") && (kv.1 != "script")).take 3
  let argsText := String.join (keyArgs.map fun kv =>
    let k := kv.1
    let dv := displayValue kv.2
    s!"   • {k}: {dv}\n")
  head ++ argsText ++ "\n"

/-- The full plan description message content of `handleSubmit`. -/
def planDescription (plan : List PlanAction) : String :=
  let n := plan.length
  let plural := if n > 1 then "s" else ""
  s!"I will perform {n} action{plural}:\n\n" ++
    String.join (plan.enum.map fun ia => planActionDesc (ia.1 + 1) ia.2)

/-- `successCount` of `executeCurrentPlan`: results whose `status` is `success`. -/
def successCount (rs : List ExecActionResult) : Nat :=
  (rs.filter fun r => r.status == "success").length

/-- The `forEach` of `executeCurrentPlan` building `outputText` and `errorText`:
successful truthy outputs are rendered and concatenated (with `\n\n` between
non-final entries), error results with truthy `error` are collected as
`❌ action: error` lines. -/
def buildTexts (rs : List ExecActionResult) : String × String :=
  List.foldl
    (fun acc ir =>
      let idx := ir.1
      let r := ir.2
      if r.status == "success" && truthyOut r.output then
        let rendered := match r.output with
          | some o => renderOutput r.action o
          | none => ""
        let sep := if idx < rs.length - 1 then "\n\n" else ""
        (acc.1 ++ rendered ++ sep, acc.2)
      else if r.status == "error" && truthyStr r.error then
        let act := r.action
        let e := r.error.getD ""
        (acc.1, acc.2 ++ s!"❌ {act}: {e}\n")
      else acc)
    ("", "") rs.enum

/-- The `lastResult` update of `executeCurrentPlan`: the last successful result
with truthy output whose action is `get_top_processes_by_memory` or
`run_python_code` (unchanged when there is none). -/
def updateLastResult (init : Option ExecActionResult) (rs : List ExecActionResult) :
    Option ExecActionResult :=
  List.foldl
    (fun acc r =>
      if r.status == "success" && truthyOut r.output &&
          (r.action == "get_top_processes_by_memory" || r.action == "run_python_code") then
        some r
      else acc)
    init rs

/-- The `(type, title, content)` of the final message of `executeCurrentPlan`:
all-success gives `outputText` (or the `All N action(s)` text when it is empty);
a mixed outcome gives the `Completed s/t actions (f failed)` report with the
error lines and the successful outputs appended. -/
def doneMessage (rs : List ExecActionResult) : String × String × String :=
  let s := successCount rs
  let t := rs.length
  let ot := (buildTexts rs).1
  let et := (buildTexts rs).2
  if s == t then
    ("success", "Done",
      if ot == "" then s!"All {t} action(s) completed successfully!" else ot)
  else
    let header := "Completed " ++ toString s ++ "/" ++ toString t ++ " actions (" ++
      toString (t - s) ++ " failed)\n\n"
    let withErr := if et == "" then header else header ++ ("Errors:\n" ++ et ++ "\n")
    let full := if ot == "" then withErr else withErr ++ ("\nSuccessful outputs:\n" ++ ot)
    ("warning", "Done", full)

/-- `executeCurrentPlan` (renderer.js): sends the current plan to the backend
via `approve-plan` (the IPC carries only the plan — no cancellation channel
exists), then checks `shouldStop`, then builds and shows the outcome message.
The `finally` block clears `currentPlan` and calls `setProcessing(false)` on
every path.  `stopDuringExec` models a press of the Stop button while the
`await` is outstanding. -/
def executeCurrentPlan (st : RendererState) (execResp : ExecResponse) (stopDuringExec : Bool) :
    RendererState × List UIEvent :=
  match st.currentPlan with
  | none => (st, [])
  | some plan =>
    let callEv := UIEvent.callApprovePlan plan
    let st1 := if stopDuringExec then handleStopS st else st
    let stopEvs := if stopDuringExec then [UIEvent.message "warning" "Stopped" stopMessageContent] else []
    if st1.shouldStop then
      ({ st1 with currentPlan := none, isProcessing := false, shouldStop := false },
        callEv :: stopEvs)
    else if execResp.success then
      let rs := execResp.results
      let newLast := updateLastResult st1.lastResult rs
      let m := doneMessage rs
      ({ st1 with lastResult := newLast, currentPlan := none, isProcessing := false, shouldStop := false },
        callEv :: stopEvs ++ [UIEvent.message m.1 m.2.1 m.2.2])
    else
      let em := if truthyStr execResp.error then execResp.error.getD "" else "Execution error."
      ({ st1 with currentPlan := none, isProcessing := false, shouldStop := false },
        callEv :: stopEvs ++ [UIEvent.message "error" "Failed" em])

/-- The part of `handleSubmit` after the client-side formatting check: calls the
planner, then (unless the planner failed, the plan is empty, or it is a single
`chat` action) shows the plan description and immediately invokes
`executeCurrentPlan` — the source comment reads `// Auto-execute immediately`.
`stopDuringPlan` models a press of the Stop button while the planner call is
outstanding. -/
def handleSubmitBackend (st : RendererState) (p : String) (resp : PlannerResponse)
    (stopDuringPlan : Bool) (execResp : ExecResponse) (stopDuringExec : Bool) :
    RendererState × List UIEvent :=
  let st1 := setProcessingS st true
  let callEv := UIEvent.callSubmitPrompt p
  let st2 := if stopDuringPlan then handleStopS st1 else st1
  let stopEvs := if stopDuringPlan then [UIEvent.message "warning" "Stopped" stopMessageContent] else []
  if st2.shouldStop then
    (setProcessingS st2 false, callEv :: stopEvs)
  else if resp.success then
    if resp.plan.length > 0 then
      let st3 := { st2 with currentPlan := some resp.plan }
      if isChatPlan resp.plan then
        let msg := match resp.plan.head? with
          | some a => chatMessageOf a
          | none => "Hello!"
        (setProcessingS st3 false, callEv :: stopEvs ++ [UIEvent.message "success" "Agent" msg])
      else
        let planEv := UIEvent.message "plan" "Plan" (planDescription resp.plan)
        let res := executeCurrentPlan st3 execResp stopDuringExec
        (res.1, callEv :: stopEvs ++ planEv :: res.2)
    else
      (setProcessingS st2 false,
        callEv :: stopEvs ++ [UIEvent.message "error" "Error" "Failed to create plan. Try rephrasing."])
  else
    let em := if truthyStr resp.error then resp.error.getD "" else "Processing failed."
    (setProcessingS st2 false, callEv :: stopEvs ++ [UIEvent.message "error" "Error" em])

/-- `handleSubmit` (renderer.js): trims the prompt, guards on emptiness and
`isProcessing`, shows the user message, serves formatting-only requests
client-side (returning before any backend call), and otherwise continues with
the planner/executor round trips. -/
def handleSubmit (st : RendererState) (rawPrompt : String) (resp : PlannerResponse)
    (stopDuringPlan : Bool) (execResp : ExecResponse) (stopDuringExec : Bool) :
    RendererState × List UIEvent :=
  let p := jsTrim rawPrompt
  if p == "" || st.isProcessing then (st, [])
  else
    let userEv := UIEvent.message "user" "You" p
    let tryFormat : Option String :=
      if isFormattingOnlyRequest p && st.lastResult.isSome then
        let ef := extractExcludeFields p
        if ef.length > 0 then
          match reformatLastResult st.lastResult ef with
          | some reformatted =>
            let outputText := formatSystemInfo reformatted
            let listStr := String.intercalate ", " ef
            some s!"Reformatted (excluding: {listStr})\n\n{outputText}"
          | none => none
        else none
      else none
    match tryFormat with
    | some content => (st, [userEv, UIEvent.message "success" "Done" content])
    | none =>
      let res := handleSubmitBackend st p resp stopDuringPlan execResp stopDuringExec
      (res.1, userEv :: res.2)

/-! ### The Electron main process (main.js) -/

/-- The JSON object the `--check-admin` probe prints, as far as `main.js` reads
it (`result.is_admin`); `JSON.parse` failure is the `none` case of the caller's
argument. -/
structure AdminJson where
  is_admin : Option Bool
deriving DecidableEq

/-- `checkAdminStatus` (main.js): on `win32` it spawns the probe and resolves
with `result.is_admin || false` when the exit code is `0` and the output
parses, with `false` on a non-zero exit code or a parse failure; on any other
platform it resolves `false` without probing.  The promise only ever resolves
(never rejects), which the totality of this function reflects. -/
def checkAdminStatus (platform : String) (exitCode : Int) (parsed : Option AdminJson) : Bool :=
  if platform == "win32" then
    if exitCode == 0 then
      match parsed with
      | some j => j.is_admin.getD false
      | none => false
    else false
  else false

/-- The main process's module state: `isRunningAsAdmin` is its only admin
variable. -/
structure MainState where
  isRunningAsAdmin : Bool
deriving DecidableEq

/-- `app.whenReady` (main.js): awaits `checkAdminStatus()` once and assigns the
result to `isRunningAsAdmin` — the only write to that variable in the file. -/
def appWhenReady (probe : Bool) (_st : MainState) : MainState :=
  { isRunningAsAdmin := probe }

/-- `limit || 10` of the `view-logs` handler: a missing (or zero) limit becomes
the default 10. -/
def viewLogsLimit : Option Nat → Nat
  | none => 10
  | some n => if n == 0 then 10 else n

/-- The IPC requests `main.js` registers handlers for. -/
inductive MainOp where
  | checkAdmin
  | viewLogs (limit : Option Nat)
  | getHelp
  | submitPrompt (prompt : String)
  | approvePlan (plan : List PlanAction)
deriving DecidableEq

/-- The parts of the handlers' responses this development observes: the
`check-admin` payload, and the limit forwarded to the backend by `view-logs`. -/
inductive MainResponse where
  | adminResp (success : Bool) (is_admin : Bool)
  | logsRequest (n : Nat)
  | helpResp
  | plannerResp
  | executorResp
deriving DecidableEq

/-- One IPC dispatch: every handler reads — never writes — `isRunningAsAdmin`;
`check-admin` answers `{success: true, is_admin: isRunningAsAdmin}`. -/
def mainHandle (st : MainState) : MainOp → MainState × MainResponse
  | .checkAdmin => (st, .adminResp true st.isRunningAsAdmin)
  | .viewLogs limit => (st, .logsRequest (viewLogsLimit limit))
  | .getHelp => (st, .helpResp)
  | .submitPrompt _ => (st, .plannerResp)
  | .approvePlan _ => (st, .executorResp)

/-- The main process's event loop over a sequence of IPC requests. -/
def mainRun : MainState → List MainOp → MainState × List MainResponse
  | st, [] => (st, [])
  | st, op :: ops =>
    let r := mainHandle st op
    let rest := mainRun r.1 ops
    (rest.1, r.2 :: rest.2)

/-! ### Backend components modelled from the spec

The Python backend (`src/validator.py`, `src/executor.py`, `src/logger.py`)
is not among the sources; only its callers (`main.js`) and its documentation
are.  The definitions below model the missing parts from the spec. -/

/-- Modelled from the spec: the static, non-overridable `action_name → risk`
table of the PlanValidator (`src/validator.py`, not under src/).  Entries
follow the repository's documented action table: `open_folder`, `find_file`,
`list_files` low; `create_file`, `open_file` medium; `send_email` high. -/
def staticRiskTable : String → Option String
  | "open_folder" => some "low"
  | "find_file" => some "low"
  | "list_files" => some "low"
  | "create_file" => some "medium"
  | "open_file" => some "medium"
  | "send_email" => some "high"
  | _ => none

/-- Modelled from the spec: the validator's recomputed risk is a function of
the action name alone — the submitted `risk_level` is not consulted. -/
def computedRisk (a : PlanAction) : Option String := staticRiskTable a.action

/-- Modelled from the spec: the ActionExecutor (`src/executor.py`, not under
src/) iterates the plan in order and produces exactly one ExecutionResult per
action — `status = success` with the output on success, `status = error` with
the error message on failure (continue-on-error).  `interp` supplies each
action's own outcome. -/
def executeActions (interp : PlanAction → Except String JSOutput) :
    List PlanAction → List ExecActionResult
  | [] => []
  | a :: rest =>
    (match interp a with
      | Except.ok out => { action := a.action, status := "success", output := some out, error := none }
      | Except.error e => { action := a.action, status := "error", output := none, error := some e })
      :: executeActions interp rest

/-- Modelled from the spec: one audit record
`{timestamp, action_name, status, error?, risk_level, elevated}`. -/
structure AuditRecord where
  timestamp : Nat
  action_name : String
  status : String
  error : Option String
  risk_level : String
  elevated : Bool
deriving DecidableEq

/-- Modelled from the spec: `AuditSink.record` appends one record to the
append-only log (`src/logger.py`, not under src/); the log is kept in
chronological (insertion) order. -/
def auditRecord (log : List AuditRecord) (r : AuditRecord) : List AuditRecord :=
  log ++ [r]

/-- Modelled from the spec: `AuditSink.recent n` returns at most `n` most
recent records, newest first (the documented query is
`ORDER BY timestamp DESC LIMIT n`). -/
def auditRecent (log : List AuditRecord) (n : Nat) : List AuditRecord :=
  log.reverse.take n

/-- Modelled from the spec: each ExecutionResult is written to the audit log
exactly once, in order (timestamps are not modelled; risk and elevation are
recorded by the backend from its own classification). -/
def recordResults (log : List AuditRecord) (rs : List ExecActionResult) : List AuditRecord :=
  List.foldl
    (fun acc r => auditRecord acc
      { timestamp := 0, action_name := r.action, status := r.status, error := r.error,
        risk_level := "", elevated := false })
    log rs

/-- Chronological order of an audit log: timestamps never decrease. -/
def chronological (log : List AuditRecord) : Prop :=
  List.Pairwise (fun a b => a.timestamp ≤ b.timestamp) log

/-- Newest-first order of a query result: timestamps never increase. -/
def newestFirst (l : List AuditRecord) : Prop :=
  List.Pairwise (fun a b => b.timestamp ≤ a.timestamp) l

/-! ### Conversation management (renderer.js) -/

/-- One saved transcript message. -/
structure SavedMsg where
  type : String
  title : String
  content : String
deriving DecidableEq

/-- One conversation `{id, title, timestamp, messages}` (the timestamp is the
ISO string `new Date().toISOString()`, opaque here). -/
structure Conversation where
  id : String
  title : String
  timestamp : String
  messages : List SavedMsg
deriving DecidableEq

/-- The renderer's conversation state: the `conversations` array and
`currentConversationId` (initially `null`). -/
structure ConvState where
  conversations : List Conversation
  currentConversationId : Option String
deriving DecidableEq

/-- `createNewConversation` (renderer.js): unshifts a fresh conversation (id
from `generateId()`, passed in as `fid`) and makes it current. -/
def createNewConversation (st : ConvState) (fid now : String) : ConvState :=
  let newConv : Conversation := { id := fid, title := "New Chat", timestamp := now, messages := [] }
  { conversations := newConv :: st.conversations, currentConversationId := some fid }

/-- `loadConversation` (renderer.js): a no-op when the id is not found,
otherwise makes that conversation current. -/
def loadConversationOp (st : ConvState) (cid : String) : ConvState :=
  if st.conversations.any (fun c => c.id == cid) then
    { st with currentConversationId := some cid }
  else st

/-- `deleteConversation` (renderer.js): returns when `findIndex` misses;
otherwise splices out the first conversation with that id
(`splice(findIndex(...), 1)` is `eraseP` on the first match) and, when the
deleted one was current, loads `conversations[0]` or creates a fresh
conversation when none remain. -/
def deleteConversationOp (st : ConvState) (cid fid now : String) : ConvState :=
  if st.conversations.any (fun c => c.id == cid) then
    let rest := st.conversations.eraseP (fun c => c.id == cid)
    let st1 : ConvState := { st with conversations := rest }
    if st.currentConversationId == some cid then
      match rest with
      | [] => createNewConversation st1 fid now
      | c0 :: _ => loadConversationOp st1 c0.id
    else st1
  else st

/-- The confirmed branch of the `clearHistoryBtn` listener: empties the array
and creates a fresh conversation. -/
def clearAllOp (st : ConvState) (fid now : String) : ConvState :=
  createNewConversation { st with conversations := [] } fid now

/-- `loadConversations` (renderer.js): parses `localStorage` (its parsed value
is the argument), creates an initial conversation when the list is empty, and
otherwise makes the most recent (first) conversation current. -/
def loadConversations (saved : Option (List Conversation)) (fid now : String) : ConvState :=
  let convs := saved.getD []
  match convs with
  | [] => createNewConversation { conversations := [], currentConversationId := none } fid now
  | c :: rest => loadConversationOp { conversations := c :: rest, currentConversationId := some c.id } c.id

/-- The conversation operations of the UI (fresh ids and timestamps from
`generateId()`/`Date` are inputs). -/
inductive ConvOp where
  | create (fid now : String)
  | load (cid : String)
  | delete (cid fid now : String)
  | clearAll (fid now : String)
deriving DecidableEq

/-- Dispatch of one conversation operation. -/
def convStep (st : ConvState) : ConvOp → ConvState
  | .create fid now => createNewConversation st fid now
  | .load cid => loadConversationOp st cid
  | .delete cid fid now => deleteConversationOp st cid fid now
  | .clearAll fid now => clearAllOp st fid now

/-- The conversation invariant: the list is non-empty and
`currentConversationId` is the id of a conversation in the list. -/
def convInvariant (st : ConvState) : Bool :=
  !st.conversations.isEmpty &&
    st.conversations.any (fun c => some c.id == st.currentConversationId)

/-! ### Helper lemmas -/

lemma mainHandle_state (st : MainState) (op : MainOp) : (mainHandle st op).1 = st := by
  cases op <;> rfl

lemma mainRun_state (st : MainState) (ops : List MainOp) : (mainRun st ops).1 = st := by
  induction ops generalizing st with
  | nil => rfl
  | cons op ops ih =>
    show (mainRun (mainHandle st op).1 ops).1 = st
    rw [mainHandle_state, ih]

lemma mainRun_admin_responses (st : MainState) (ops : List MainOp) :
    ((mainRun st ops).2.all fun r => match r with
      | MainResponse.adminResp s b => s && (b == st.isRunningAsAdmin)
      | _ => true) = true := by
  induction ops generalizing st with
  | nil => rfl
  | cons op ops ih =>
    show ((mainHandle st op).2 :: (mainRun (mainHandle st op).1 ops).2).all _ = true
    rw [List.all_cons, Bool.and_eq_true, mainHandle_state]
    refine ⟨?_, ih st⟩
    cases op <;> simp [mainHandle]

/-! ### Claims -/

/-- C4: the admin status is probed once at startup (`app.whenReady` performs the
only write to `isRunningAsAdmin`); after that, every sequence of IPC requests
leaves the cached value unchanged and every `check-admin` response returns
exactly the cached probe value. -/
theorem admin_status_write_once (probe : Bool) (ops : List MainOp) :
    (mainRun (appWhenReady probe { isRunningAsAdmin := false }) ops).1.isRunningAsAdmin = probe ∧
    ((mainRun (appWhenReady probe { isRunningAsAdmin := false }) ops).2.all fun r => match r with
      | MainResponse.adminResp s b => s && (b == probe)
      | _ => true) = true := by
  constructor
  · rw [mainRun_state]; rfl
  · exact mainRun_admin_responses { isRunningAsAdmin := probe } ops

/-- C6: the (spec-modelled) executor produces exactly one result per action, in
submission order, and a result's status is `success` exactly when its error
field is absent. -/
theorem execution_results_aligned (interp : PlanAction → Except String JSOutput)
    (plan : List PlanAction) :
    (executeActions interp plan).length = plan.length ∧
    (executeActions interp plan).map (fun r => r.action) = plan.map (fun a => a.action) ∧
    ((executeActions interp plan).all fun r => (r.status == "success") == (r.error == none)) = true := by
  induction plan with
  | nil => exact ⟨rfl, rfl, rfl⟩
  | cons a rest ih =>
    refine ⟨?_, ?_, ?_⟩ <;>
      cases h : interp a <;>
        simp [executeActions, h, ih.1, ih.2.1, ih.2.2]

/-- C7: the audit query returns at most `n` records, they are the most recent
ones (a prefix of the reversed chronological log), newest first; and the
`view-logs` handler defaults a missing limit to 10. -/
theorem audit_recent_query :
    viewLogsLimit none = 10 ∧
    ∀ (log : List AuditRecord) (n : Nat),
      (auditRecent log n).length ≤ n ∧
      List.IsPrefix (auditRecent log n) log.reverse ∧
      (chronological log → newestFirst (auditRecent log n)) := by
  refine ⟨rfl, fun log n => ⟨List.length_take_le n log.reverse, List.take_prefix n log.reverse,
    fun h => ?_⟩⟩
  have hrev : log.reverse.Pairwise (fun a b => b.timestamp ≤ a.timestamp) :=
    List.pairwise_reverse.2 h
  exact hrev.sublist (List.take_sublist n log.reverse)

/-- A two-record chronological log for the audit-query witness. -/
def logW : List AuditRecord :=
  [{ timestamp := 1, action_name := "open_folder", status := "success", error := none,
     risk_level := "low", elevated := false },
   { timestamp := 2, action_name := "create_file", status := "success", error := none,
     risk_level := "medium", elevated := false }]

/-- Witness for C7 at a concrete chronological log and `n = 1`. -/
theorem audit_recent_query_witness :
    (auditRecent logW 1).length ≤ 1 ∧ newestFirst (auditRecent logW 1) :=
  ⟨(audit_recent_query.2 logW 1).1,
   (audit_recent_query.2 logW 1).2.2 (by unfold chronological logW; decide)⟩

/-- C8: the admin probe fails safe — a non-Windows platform, a non-zero exit
code, or unparseable probe output all make `checkAdminStatus` resolve `false`
(the function is total, reflecting that the promise never rejects). -/
theorem admin_probe_fails_safe (platform : String) (exitCode : Int) (parsed : Option AdminJson) :
    (platform ≠ "win32" → checkAdminStatus platform exitCode parsed = false) ∧
    (exitCode ≠ 0 → checkAdminStatus platform exitCode parsed = false) ∧
    (parsed = none → checkAdminStatus platform exitCode parsed = false) := by
  refine ⟨fun h => ?_, fun h => ?_, fun h => ?_⟩ <;>
    simp only [checkAdminStatus] <;>
    · split
      · split
        · split <;> simp_all
        · rfl
      · rfl

/-- Witness for C8 on a non-Windows platform. -/
theorem admin_probe_fails_safe_witness : checkAdminStatus "linux" 1 none = false :=
  (admin_probe_fails_safe "linux" 1 none).1 (by decide)

/-- The concrete three-action plan of the cancellation example. -/
def planC2 : List PlanAction :=
  [{ action := "open_folder", args := [], risk_level := some "low", description := none },
   { action := "list_files", args := [], risk_level := some "low", description := none },
   { action := "create_file", args := [], risk_level := some "medium", description := none }]

/-- An interpretation in which every action of the example succeeds. -/
def interpC2 : PlanAction → Except String JSOutput :=
  fun a => Except.ok (JSOutput.str ("done " ++ a.action))

/-- The backend response for the example: the `approve-plan` IPC carries only
the plan (`executePlan` in `main.js` passes no cancellation signal), so the
executor runs the whole plan. -/
def execRespC2 : ExecResponse :=
  { success := true, results := executeActions interpC2 planC2, error := none }

/-- The renderer state while the example plan is executing. -/
def stC2 : RendererState :=
  { currentPlan := some planC2, isProcessing := true, shouldStop := false, lastResult := none }

/-- C2 (the code at the failing input): `handleStop` leaves `shouldStop = false`
for every state (it sets the flag and then `setProcessing(false)` resets it),
no cancellation signal crosses the `approve-plan` IPC, and with Stop pressed
after action 1 — during the outstanding await — all three actions execute, all
three results are displayed, and all three reach the audit log; the claimed
length-1 prefix never occurs. -/
theorem stop_signal_never_cancels :
    (∀ st : RendererState, (handleStopS st).shouldStop = false) ∧
    execRespC2.results.length = 3 ∧
    (executeCurrentPlan stC2 execRespC2 true).2 =
      [UIEvent.callApprovePlan planC2,
       UIEvent.message "warning" "Stopped" stopMessageContent,
       UIEvent.message "success" "Done" "done open_folder\n\ndone list_files\n\ndone create_file"] ∧
    (recordResults [] execRespC2.results).map (fun r => r.action_name) =
      ["open_folder", "list_files", "create_file"] := by
  exact ⟨fun st => rfl, by decide, by decide, by decide⟩

/-- A submitted action whose name maps to high in the static table but which
claims low risk. -/
def actC3 : PlanAction :=
  { action := "send_email", args := [], risk_level := some "low", description := none }

/-- C3 counterexample: the plan display colours `send_email` (table risk high)
with the low-risk colour because it keys on the submitted `risk_level` — the
submitted value is trusted for a display decision. -/
theorem plan_display_trusts_claimed_risk :
    staticRiskTable actC3.action = some "high" ∧
    planItemColor actC3 = "#4CAF50" ∧
    riskColor (computedRisk actC3) = "#f44336" ∧
    planItemColor actC3 ≠ riskColor (computedRisk actC3) := by decide

/-- C3 amended: the (spec-modelled) validator recomputes risk from the action
name alone — an action whose name maps to high is high regardless of the
submitted value — while the UI plan display, by contrast, colours an action
from the submitted `risk_level` as-is. -/
theorem risk_recompute_vs_display (name : String) (args : List (String × String))
    (rl₁ rl₂ : Option String) (d₁ d₂ : Option String) :
    computedRisk { action := name, args := args, risk_level := rl₁, description := d₁ } =
      computedRisk { action := name, args := [], risk_level := rl₂, description := d₂ } ∧
    planItemColor { action := name, args := args, risk_level := rl₁, description := d₁ } =
      riskColor rl₁ ∧
    (staticRiskTable name = some "high" →
      computedRisk { action := name, args := args, risk_level := rl₁, description := d₁ } =
        some "high") :=
  ⟨rfl, rfl, fun h => h⟩

/-- Witness for C3's amended statement at `send_email` claiming low risk. -/
theorem risk_recompute_vs_display_witness :
    computedRisk { action := "send_email", args := [("to", "x")], risk_level := some "low",
                   description := none } = some "high" :=
  (risk_recompute_vs_display "send_email" [("to", "x")] (some "low") none none none).2.2 rfl

/-- A one-action, fully successful execution whose output is the string
`hello`. -/
def rsC5 : List ExecActionResult :=
  [{ action := "open_folder", status := "success", output := some (JSOutput.str "hello"),
     error := none }]

/-- C5 counterexample: a completed (fully successful) execution whose
user-visible response is just the output text — it contains no digit at all,
so it does not report `success_count` of `total_count`. -/
theorem full_success_message_omits_counts :
    successCount rsC5 = 1 ∧ rsC5.length = 1 ∧
    doneMessage rsC5 = ("success", "Done", "hello") ∧
    ((doneMessage rsC5).2.2.toList.all fun c => !c.isDigit) = true := by decide

/-- C5 amended: every mixed outcome produces the warning report beginning with
`Completed s/t actions (f failed)` — the counts computed as the number of
successful results out of the result-list length — with the per-action error
lines and successful outputs appended; it is never collapsed into a single
boolean.  A fully successful execution instead shows the concatenated outputs
(or the `All N action(s)` text). -/
theorem mixed_outcome_reports_counts (rs : List ExecActionResult)
    (h : successCount rs ≠ rs.length) :
    (doneMessage rs).1 = "warning" ∧
    ∃ rest, (doneMessage rs).2.2 =
      "Completed " ++ toString (successCount rs) ++ "/" ++ toString rs.length ++ " actions (" ++
        toString (rs.length - successCount rs) ++ " failed)\n\n" ++ rest := by
  have hb : (successCount rs == rs.length) = false := by
    simpa using h
  unfold doneMessage
  simp only [hb, Bool.false_eq_true, if_false]
  refine ⟨trivial, ?_⟩
  split
  · split
    · exact ⟨"", by simp⟩
    · exact ⟨"Errors:\n" ++ (buildTexts rs).2 ++ "\n", by simp [String.append_assoc]⟩
  · split
    · exact ⟨"\nSuccessful outputs:\n" ++ (buildTexts rs).1, by simp [String.append_assoc]⟩
    · exact ⟨("Errors:\n" ++ (buildTexts rs).2 ++ "\n") ++
        ("\nSuccessful outputs:\n" ++ (buildTexts rs).1), by simp [String.append_assoc]⟩

/-- A two-action execution with one success and one failure. -/
def rsC5W : List ExecActionResult :=
  [{ action := "open_folder", status := "success", output := some (JSOutput.str "ok"),
     error := none },
   { action := "send_email", status := "error", output := none, error := some "smtp down" }]

/-- Witness for C5's amended statement on a mixed 1-of-2 outcome. -/
theorem mixed_outcome_reports_counts_witness : (doneMessage rsC5W).1 = "warning" :=
  (mixed_outcome_reports_counts rsC5W (by decide)).1

lemma executeCurrentPlan_dispatches (st : RendererState) (execResp : ExecResponse) (s2 : Bool)
    (plan : List PlanAction) (h : st.currentPlan = some plan) :
    UIEvent.callApprovePlan plan ∈ (executeCurrentPlan st execResp s2).2 := by
  unfold executeCurrentPlan
  rw [h]
  dsimp only
  repeat' split
  all_goals simp

lemma handleSubmitBackend_dispatches (st : RendererState) (p : String) (resp : PlannerResponse)
    (s1 : Bool) (execResp : ExecResponse) (s2 : Bool)
    (hs : resp.success = true) (hne : resp.plan ≠ []) (hchat : isChatPlan resp.plan = false) :
    UIEvent.callApprovePlan resp.plan ∈ (handleSubmitBackend st p resp s1 execResp s2).2 := by
  have hlen : resp.plan.length > 0 := List.length_pos.2 hne
  unfold handleSubmitBackend
  cases s1 <;>
    simp only [handleStopS, setProcessingS, hs, hchat, if_pos hlen, if_true, if_false,
      Bool.false_eq_true, ite_false, List.mem_cons, List.mem_append]
  · exact Or.inr (Or.inr (executeCurrentPlan_dispatches
      { currentPlan := some resp.plan, isProcessing := true, shouldStop := false,
        lastResult := st.lastResult } execResp s2 resp.plan rfl))
  · exact Or.inr (Or.inr (executeCurrentPlan_dispatches
      { currentPlan := some resp.plan, isProcessing := false, shouldStop := false,
        lastResult := st.lastResult } execResp s2 resp.plan rfl))

/-- The idle renderer state. -/
def stIdle : RendererState :=
  { currentPlan := none, isProcessing := false, shouldStop := false, lastResult := none }

/-- A planner response carrying a single high-risk (`send_email`) action. -/
def planC1 : List PlanAction :=
  [{ action := "send_email", args := [("to", "a@b.c")], risk_level := some "high",
     description := none }]

/-- The planner response of the C1 example. -/
def respC1 : PlannerResponse := { success := true, plan := planC1, error := none }

/-- The executor response of the C1 example. -/
def execRespC1 : ExecResponse :=
  { success := true, results := executeActions interpC2 planC1, error := none }

/-- C1 counterexample: submitting a prompt whose plan is the high-risk
`send_email` action dispatches the plan to the executor (the `approve-plan`
call appears among the submission's own events) although the submission's
inputs contain no approval signal — `handleSubmit` auto-executes and the
approval entry point is never consulted. -/
theorem highRiskPlan_dispatched_unapproved :
    staticRiskTable "send_email" = some "high" ∧
    UIEvent.callApprovePlan planC1 ∈
      (handleSubmit stIdle "send the report" respC1 false execRespC1 false).2 :=
  ⟨rfl, by decide⟩

/-- C1 amended: every successful planner response with a non-empty plan other
than a single `chat` action is dispatched to the executor immediately within
the same submission (`// Auto-execute immediately`), for every state, prompt
and risk level, with no approval gate — even if Stop is pressed during either
await. -/
theorem plans_auto_executed (st : RendererState) (prompt : String) (resp : PlannerResponse)
    (execResp : ExecResponse) (s1 s2 : Bool)
    (hproc : st.isProcessing = false)
    (hp : jsTrim prompt ≠ "")
    (hfmt : isFormattingOnlyRequest (jsTrim prompt) = false)
    (hs : resp.success = true)
    (hne : resp.plan ≠ [])
    (hchat : isChatPlan resp.plan = false) :
    UIEvent.callApprovePlan resp.plan ∈ (handleSubmit st prompt resp s1 execResp s2).2 := by
  have hp' : (jsTrim prompt == "") = false := beq_eq_false_iff_ne.2 hp
  unfold handleSubmit
  simp only [hp', hproc, Bool.or_self, Bool.false_eq_true, if_false, hfmt, Bool.false_and,
    Bool.and_self]
  exact List.mem_cons_of_mem _ (handleSubmitBackend_dispatches st (jsTrim prompt) resp s1 execResp
    s2 hs hne hchat)

/-- Witness for C1's amended statement: a concrete idle-state submission whose
plan is the single `send_email` action. -/
theorem plans_auto_executed_witness :
    UIEvent.callApprovePlan planC1 ∈
      (handleSubmit stIdle "email me the report" respC1 false execRespC1 false).2 :=
  plans_auto_executed stIdle "email me the report" respC1 execRespC1 false false
    rfl (by decide) (by decide) rfl (by decide) (by decide)

lemma any_isEmpty_false {α : Type} (l : List α) (q : α → Bool) (h : l.any q = true) :
    l.isEmpty = false := by
  cases l with
  | nil => simp at h
  | cons a t => rfl

lemma any_eraseP_of_ne {α : Type} (p q : α → Bool) (l : List α) (h : l.any q = true)
    (hpq : ∀ a, q a = true → p a = false) : (l.eraseP p).any q = true := by
  induction l with
  | nil => simp at h
  | cons a t ih =>
    rw [List.any_cons, Bool.or_eq_true] at h
    by_cases hqa : q a = true
    · have hpa := hpq a hqa
      rw [List.eraseP_cons, hpa]
      simp [hqa]
    · have ht : t.any q = true := by
        rcases h with h | h
        · exact absurd h hqa
        · exact h
      rw [List.eraseP_cons]
      by_cases hpa : p a = true
      · rw [hpa]
        simpa using ht
      · rw [Bool.not_eq_true] at hpa
        rw [hpa]
        simp only [cond_false, List.any_cons, Bool.or_eq_true]
        exact Or.inr (ih ht)

/-- C9: every conversation operation — the initial load, creating, deleting
(any conversation, current or not), and clearing all history — leaves the
conversation list non-empty with `currentConversationId` referring to a
conversation present in the list. -/
theorem conversation_invariant_preserved :
    (∀ (saved : Option (List Conversation)) (fid now : String),
      convInvariant (loadConversations saved fid now) = true) ∧
    (∀ (st : ConvState) (op : ConvOp),
      convInvariant st = true → convInvariant (convStep st op) = true) := by
  constructor
  · intro saved fid now
    unfold loadConversations
    rcases saved with _ | l
    · simp [convInvariant, createNewConversation, Option.getD]
    · rcases l with _ | ⟨c, rest⟩
      · simp [convInvariant, createNewConversation, Option.getD]
      · simp [convInvariant, loadConversationOp, Option.getD]
  · intro st op h
    cases op with
    | create fid now => simp [convStep, createNewConversation, convInvariant]
    | load cid =>
      simp only [convStep, loadConversationOp]
      split
      · next hany =>
        simp only [convInvariant, Bool.and_eq_true] at h ⊢
        refine ⟨by simpa using any_isEmpty_false _ _ hany, ?_⟩
        rw [List.any_eq_true] at hany ⊢
        obtain ⟨c, hc, hcid⟩ := hany
        exact ⟨c, hc, by simpa using hcid⟩
      · exact h
    | delete cid fid now =>
      simp only [convStep, deleteConversationOp]
      split
      · next hany =>
        split
        · next hcur =>
          split
          · simp [createNewConversation, convInvariant]
          · next c0 tl heq =>
            simp only [loadConversationOp]
            rw [heq]
            simp [convInvariant]
        · next hcur =>
          simp only [convInvariant, Bool.and_eq_true] at h ⊢
          rw [Bool.not_eq_true] at hcur
          have hq : (st.conversations.eraseP fun c => c.id == cid).any
              (fun c => some c.id == st.currentConversationId) = true := by
            refine any_eraseP_of_ne _ _ _ h.2 fun a ha => ?_
            rw [beq_iff_eq] at ha
            by_contra hcontra
            rw [Bool.not_eq_false, beq_iff_eq] at hcontra
            rw [← ha, hcontra] at hcur
            simp at hcur
          exact ⟨by simpa using any_isEmpty_false _ _ hq, hq⟩
      · exact h
    | clearAll fid now => simp [convStep, clearAllOp, createNewConversation, convInvariant]

/-- A one-conversation state for the C9 witness. -/
def stConvW : ConvState :=
  { conversations := [{ id := "a", title := "t", timestamp := "ts", messages := [] }],
    currentConversationId := some "a" }

/-- Witness for C9: deleting the only (current) conversation still leaves a
non-empty list with a valid current id. -/
theorem conversation_invariant_preserved_witness :
    convInvariant (convStep stConvW (ConvOp.delete "a" "b" "ts2")) = true :=
  conversation_invariant_preserved.2 stConvW (ConvOp.delete "a" "b" "ts2") (by decide)

lemma deleteProcField_name (q : ProcEntry) (f : String) : (deleteProcField q f).name = q.name := by
  unfold deleteProcField
  split
  · rfl
  · split
    · rfl
    · split <;> rfl

lemma deleteProcField_pid_of_ne (q : ProcEntry) (f : String) (hf : f ≠ "pid") :
    (deleteProcField q f).pid = q.pid := by
  unfold deleteProcField
  split
  · next h => exact absurd (by simpa using h) hf
  · split
    · rfl
    · split <;> rfl

lemma foldl_deleteProcField_name (efs : List String) (q : ProcEntry) :
    (List.foldl deleteProcField q efs).name = q.name := by
  induction efs generalizing q with
  | nil => rfl
  | cons f efs ih => rw [List.foldl_cons, ih, deleteProcField_name]

lemma foldl_deleteProcField_pid (efs : List String) (q : ProcEntry) :
    (List.foldl deleteProcField q efs).pid = if "pid" ∈ efs then none else q.pid := by
  induction efs generalizing q with
  | nil => simp
  | cons f efs ih =>
    rw [List.foldl_cons, ih]
    by_cases hf : f = "pid"
    · subst hf
      have hdel : (deleteProcField q "pid").pid = none := rfl
      simp [hdel]
    · have hdel := deleteProcField_pid_of_ne q f hf
      have hf' : "pid" ≠ f := fun hh => hf hh.symm
      simp [List.mem_cons, hf', hdel]

/-- C10: a recognised formatting-only request with a stored truthy last result
is served entirely client-side — the renderer state (in particular
`lastResult`) is unchanged and no `submit-prompt` or `approve-plan` backend
call is made; and the reformatting deletes the excluded fields only from the
clone (each process entry of the clone loses `pid` while keeping its name). -/
theorem reformat_is_client_side_pure (st : RendererState) (prompt : String)
    (resp : PlannerResponse) (execResp : ExecResponse) (s1 s2 : Bool) (r : ExecActionResult)
    (hproc : st.isProcessing = false)
    (hp : jsTrim prompt ≠ "")
    (hfmt : isFormattingOnlyRequest (jsTrim prompt) = true)
    (hlast : st.lastResult = some r)
    (hout : truthyOut r.output = true)
    (hef : extractExcludeFields (jsTrim prompt) ≠ []) :
    ((handleSubmit st prompt resp s1 execResp s2).1 = st ∧
      ((handleSubmit st prompt resp s1 execResp s2).2.all fun e =>
        match e with
        | UIEvent.callSubmitPrompt _ => false
        | UIEvent.callApprovePlan _ => false
        | _ => true) = true) ∧
    (∀ (efs : List String) (q : ProcEntry), "pid" ∈ efs →
      (List.foldl deleteProcField q efs).pid = none ∧
      (List.foldl deleteProcField q efs).name = q.name) := by
  refine ⟨?_, fun efs q hq =>
    ⟨by rw [foldl_deleteProcField_pid]; simp [hq], foldl_deleteProcField_name efs q⟩⟩
  have hp' : (jsTrim prompt == "") = false := beq_eq_false_iff_ne.2 hp
  have hsome : st.lastResult.isSome = true := by rw [hlast]; rfl
  have hlen : (extractExcludeFields (jsTrim prompt)).length > 0 := List.length_pos.2 hef
  have href : ∃ out, reformatLastResult st.lastResult (extractExcludeFields (jsTrim prompt)) =
      some out := by
    rw [hlast]
    cases hro : r.output with
    | none =>
      rw [hro] at hout
      simp [truthyOut] at hout
    | some o =>
      rw [hro] at hout
      cases o with
      | str s => exact ⟨JSOutput.str s, by simp [reformatLastResult, hro, hout]⟩
      | procsObj ob =>
        refine ⟨JSOutput.procsObj
          { top_processes := ob.top_processes.map fun p =>
              List.foldl deleteProcField p (extractExcludeFields (jsTrim prompt)),
            exclude_fields := some (extractExcludeFields (jsTrim prompt)) }, ?_⟩
        simp [reformatLastResult, hro, hout]
  obtain ⟨out, href⟩ := href
  unfold handleSubmit
  simp only [hp', hproc, Bool.or_self, Bool.false_eq_true, if_false, hfmt, hsome,
    Bool.and_self, if_true, if_pos hlen, href]
  exact ⟨by simp, by simp⟩

/-- The stored process-list result of the C10 witness. -/
def procW : ProcEntry :=
  { name := "chrome", memory_mb := some 500, memory_percent := some 5, pid := some 123 }

/-- The stored last result of the C10 witness. -/
def lastW : ExecActionResult :=
  { action := "get_top_processes_by_memory", status := "success",
    output := some (JSOutput.procsObj { top_processes := [procW], exclude_fields := none }),
    error := none }

/-- The renderer state of the C10 witness. -/
def stFmtW : RendererState :=
  { currentPlan := none, isProcessing := false, shouldStop := false, lastResult := some lastW }

/-- An inert planner response for the C10 witness (never reached). -/
def respW : PlannerResponse := { success := false, plan := [], error := none }

/-- An inert executor response for the C10 witness (never reached). -/
def execW : ExecResponse := { success := false, results := [], error := none }

/-- Witness for C10 at the prompt `without pid`: the state is unchanged and the
clone's process entry loses its pid. -/
theorem reformat_is_client_side_pure_witness :
    (handleSubmit stFmtW "without pid" respW false execW false).1 = stFmtW ∧
    (List.foldl deleteProcField procW ["pid"]).pid = none :=
  ⟨((reformat_is_client_side_pure stFmtW "without pid" respW execW false false lastW
      rfl (by decide) (by decide) rfl (by decide) (by decide)).1).1,
   ((reformat_is_client_side_pure stFmtW "without pid" respW execW false false lastW
      rfl (by decide) (by decide) rfl (by decide) (by decide)).2 ["pid"] procW (by decide)).1⟩

end DeskAgent
